import Mathlib

/-!
Formal model of ZomboDB's index-options module
(`src/access_method/options.rs`).

The module stores a per-index configuration record as one contiguous
block: a fixed header of `i32` fields (five string offsets and six
scalars plus one bool) followed by NUL-terminated UTF-8 strings
addressed by absolute byte offsets from the block base.  We embed the
block as a structure holding the header fields, the trailing in-block
bytes, and (to reason about out-of-bounds reads) the bytes of the
memory that happens to follow the block.  Strings are byte lists;
decoding models Rust's `str::from_utf8` (`CStr::to_str`), whose
`unwrap`/`expect` panics are embedded as `Except` errors.
-/

namespace Utf8

/-- Byte encoding of one Unicode scalar value, exactly as Rust's
`String`/`str` stores it (standard UTF-8). -/
def encodeChar (c : Char) : List Nat :=
  let n := c.toNat
  if n < 0x80 then [n]
  else if n < 0x800 then [0xC0 + n / 64, 0x80 + n % 64]
  else if n < 0x10000 then
    [0xE0 + n / 4096, 0x80 + n / 64 % 64, 0x80 + n % 64]
  else
    [0xF0 + n / 262144, 0x80 + n / 4096 % 64, 0x80 + n / 64 % 64, 0x80 + n % 64]

/-- UTF-8 encoding of a list of characters. -/
def encodeList : List Char → List Nat
  | [] => []
  | c :: cs => encodeChar c ++ encodeList cs

/-- UTF-8 encoding of a string. -/
def encode (s : String) : List Nat :=
  encodeList s.data

/-- One step of strict UTF-8 decoding, processing a single byte.
`pend = none` means a scalar-value boundary; `pend = some (v, k, lo)`
means `k` more continuation bytes are expected, `v` is the value
accumulated so far, and `lo` is the smallest value the finished
sequence may denote (the overlong-form bound fixed by the lead byte).
A finished sequence is accepted only when its value is in
`[lo, 0x110000)` and is not a surrogate — exactly the inputs Rust's
`str::from_utf8` accepts. -/
def decodeAux : Option (Nat × Nat × Nat) → List Nat → Option (List Char)
  | none, [] => some []
  | some _, [] => none
  | none, b :: rest =>
    if b < 0x80 then
      (decodeAux none rest).map fun cs => Char.ofNat b :: cs
    else if b < 0xC0 then none
    else if b < 0xE0 then decodeAux (some (b - 0xC0, 1, 0x80)) rest
    else if b < 0xF0 then decodeAux (some (b - 0xE0, 2, 0x800)) rest
    else decodeAux (some (b - 0xF0, 3, 0x10000)) rest
  | some (v, k, lo), b :: rest =>
    if 0x80 ≤ b ∧ b < 0xC0 then
      let w := v * 64 + (b - 0x80)
      if k = 1 then
        if lo ≤ w ∧ w < 0x110000 ∧ ¬(0xD800 ≤ w ∧ w ≤ 0xDFFF) then
          (decodeAux none rest).map fun cs => Char.ofNat w :: cs
        else none
      else decodeAux (some (w, k - 1, lo)) rest
    else none

/-- Strict UTF-8 decoding of a byte list, `none` on any ill-formed
input (stray or missing continuation bytes, overlong forms, surrogate
code points, values above `0x10FFFF`) — the same inputs Rust's
`str::from_utf8` rejects. -/
def decodeList? (l : List Nat) : Option (List Char) :=
  decodeAux none l

/-- Decode a byte list to a `String`, `none` if not valid UTF-8. -/
def decode? (l : List Nat) : Option String :=
  (decodeList? l).map fun cs => String.mk cs

end Utf8

/-- Length of the C string starting at the head of `mem`: the index of
the first NUL byte, or `none` when no NUL occurs in the modelled
memory (the unbounded scan of `CStr::from_ptr` would keep reading). -/
def cstrScanLen : List Nat → Option Nat
  | [] => none
  | b :: rest => if b = 0 then some 0 else (cstrScanLen rest).map (· + 1)

/-! ### Default constants (`options.rs` lines 6-16, 177) -/

def DEFAULT_BATCH_SIZE : Int := 8 * 1024 * 1024

def DEFAULT_COMPRESSION_LEVEL : Int := 1

def DEFAULT_SHARDS : Int := 5

def DEFAULT_OPTIMIZE_AFTER : Int := 0

def DEFAULT_URL : String := "default"

def DEFAULT_TYPE_NAME : String := "doc"

def DEFAULT_REFRESH_INTERVAL : String := "-1"

def ZDB_DEFAULT_REPLICAS_GUC : Int := 0

/-- Size in bytes of the fixed header of `ZDBIndexOptions`: the
`repr(C)` struct holds thirteen `i32` fields (52 bytes) and one
`bool`, padded to the 4-byte alignment, hence 56.  All stored string
offsets are absolute offsets from the struct base, so they address the
trailing region exactly when they are `≥ 56`. -/
def headerSize : Nat := 56

/-- The decoded options block (`options.rs` lines 18-37).  Header
fields are the struct's fields; `trailing` holds the block's bytes
after the header (so the block's declared length is
`headerSize + trailing.length`); `beyond` models whatever bytes happen
to sit in memory after the allocated block, so that reads running past
the allocation can be expressed. -/
structure ZDBIndexOptions where
  url_offset : Int
  type_name_offset : Int
  refresh_interval_offset : Int
  alias_offset : Int
  uuid_offset : Int
  optimize_after : Int
  compression_level : Int
  shards : Int
  replicas : Int
  bulk_concurrency : Int
  batch_size : Int
  llapi : Bool
  trailing : List Nat
  beyond : List Nat

/-- The block's declared length (`vl_len_`): header plus trailing
string region. -/
def ZDBIndexOptions.blockLen (o : ZDBIndexOptions) : Nat :=
  headerSize + o.trailing.length

/-- The addressable bytes from header end onward: first the block's
own trailing region, then adjacent memory past the allocation. -/
def ZDBIndexOptions.mem (o : ZDBIndexOptions) : List Nat :=
  o.trailing ++ o.beyond

/-- Errors of the string accessors.  `invalidEncoding` embeds the
`to_str().unwrap()` panic on non-UTF-8 bytes; `unmodelledRead` marks
reads the model does not give bytes for (an offset below the header
size — including negative offsets, which `offset as usize` would wrap
to a huge address — or a scan that exhausts the modelled memory
without meeting a NUL). -/
inductive StrError
  | invalidEncoding
  | unmodelledRead
deriving DecidableEq, Repr

/-- `CStr::from_ptr(base + offset)` followed by `to_str()`
(`options.rs` lines 168-172): scan from the offset for the first NUL,
and decode the bytes before it as UTF-8. -/
def ZDBIndexOptions.readCStr (o : ZDBIndexOptions) (offset : Int) :
    Except StrError String :=
  if offset < (headerSize : Int) then .error .unmodelledRead
  else
    let tail := o.mem.drop (offset.toNat - headerSize)
    match cstrScanLen tail with
    | none => .error .unmodelledRead
    | some len =>
      match Utf8.decode? (tail.take len) with
      | none => .error .invalidEncoding
      | some s => .ok s

/-- `get_str` (`options.rs` lines 164-174): `none` when the offset is
the sentinel 0, otherwise the decoded C string. -/
def ZDBIndexOptions.get_str (o : ZDBIndexOptions) (offset : Int) :
    Except StrError (Option String) :=
  if offset = 0 then .ok none
  else (o.readCStr offset).map some

/-- `url()` (`options.rs` lines 87-93). -/
def ZDBIndexOptions.url (o : ZDBIndexOptions) : Except StrError String :=
  if o.url_offset = 0 then .ok DEFAULT_URL
  else o.readCStr o.url_offset

/-- `type_name()` (`options.rs` lines 95-101). -/
def ZDBIndexOptions.type_name (o : ZDBIndexOptions) : Except StrError String :=
  if o.type_name_offset = 0 then .ok DEFAULT_TYPE_NAME
  else o.readCStr o.type_name_offset

/-- `refresh_interval()` (`options.rs` lines 103-109). -/
def ZDBIndexOptions.refresh_interval (o : ZDBIndexOptions) :
    Except StrError String :=
  if o.refresh_interval_offset = 0 then .ok DEFAULT_REFRESH_INTERVAL
  else o.readCStr o.refresh_interval_offset

/-- The catalog identity the derivation code reads through
`pg_sys`/`relation_get_*` calls: names and numeric ids of the
database, the index's namespace, the heap relation and the index
relation. -/
structure ResolvedIdentity where
  databaseName : String
  namespaceName : String
  tableName : String
  indexName : String
  databaseId : Nat
  namespaceId : Nat
  tableId : Nat
  indexId : Nat

/-- The alias string `alias()` synthesizes when no alias was stored:
`"{database}.{namespace}.{table}.{index}-{index_id}"`. -/
def derivedAlias (id : ResolvedIdentity) : String :=
  id.databaseName ++ "." ++ id.namespaceName ++ "." ++ id.tableName ++ "." ++
    id.indexName ++ "-" ++ toString id.indexId

/-- The uuid string `uuid()` synthesizes when no uuid was stored:
`"{database_id}.{namespace_id}.{table_id}.{index_id}"`. -/
def derivedUuid (id : ResolvedIdentity) : String :=
  toString id.databaseId ++ "." ++ toString id.namespaceId ++ "." ++
    toString id.tableId ++ "." ++ toString id.indexId

/-- `alias(heaprel, indexrel)` (`options.rs` lines 111-137). -/
def ZDBIndexOptions.alias (o : ZDBIndexOptions) (id : ResolvedIdentity) :
    Except StrError String :=
  match o.get_str o.alias_offset with
  | .ok (some a) => .ok a
  | .ok none => .ok (derivedAlias id)
  | .error e => .error e

/-- `uuid(heaprel, indexrel)` (`options.rs` lines 139-154). -/
def ZDBIndexOptions.uuid (o : ZDBIndexOptions) (id : ResolvedIdentity) :
    Except StrError String :=
  match o.get_str o.uuid_offset with
  | .ok (some u) => .ok u
  | .ok none => .ok (derivedUuid id)
  | .error e => .error e

/-- `index_name(heaprel, indexrel)` (`options.rs` lines 156-162):
defined as `uuid`. -/
def ZDBIndexOptions.index_name (o : ZDBIndexOptions) (id : ResolvedIdentity) :
    Except StrError String :=
  o.uuid id

/-- The two inputs `ZDBIndexOptions::from` inspects on a relation:
whether it is an index (`rd_index` non-null) and its stored options
block (`rd_options`, null when no options were stored). -/
structure RelationData where
  rd_index : Option Unit
  rd_options : Option ZDBIndexOptions

/-- Failure of `ZDBIndexOptions::from`: the
"relation doesn't represent an index" panic. -/
inductive LoadError
  | invalidRelationKind
deriving DecidableEq, Repr

/-- `ZDBIndexOptions::from` (`options.rs` lines 41-57).  `numCpus` is
the process-start value of the lazy `DEFAULT_BULK_CONCURRENCY`
(`num_cpus::get()`).  A missing block is replaced by a zeroed struct
(`alloc0`) whose scalar defaults are then assigned; the offsets stay
at the 0 sentinel and `llapi` stays `false`. -/
def ZDBIndexOptions.fromRelation (numCpus : Int) (relation : RelationData) :
    Except LoadError ZDBIndexOptions :=
  match relation.rd_index with
  | none => .error .invalidRelationKind
  | some _ =>
    match relation.rd_options with
    | none =>
      .ok { url_offset := 0
            type_name_offset := 0
            refresh_interval_offset := 0
            alias_offset := 0
            uuid_offset := 0
            optimize_after := DEFAULT_OPTIMIZE_AFTER
            compression_level := DEFAULT_COMPRESSION_LEVEL
            shards := DEFAULT_SHARDS
            replicas := ZDB_DEFAULT_REPLICAS_GUC
            bulk_concurrency := numCpus
            batch_size := DEFAULT_BATCH_SIZE
            llapi := false
            trailing := []
            beyond := [] }
    | some o => .ok o

/-- Errors of `validate_url`: the `expect` panic on a non-UTF-8
argument, and the two rule panics. -/
inductive UrlError
  | invalidUtf8
  | missingTrailingSlash
  | malformedUrl (msg : String)
deriving DecidableEq, Repr

/-- Rust's `str::ends_with('/')`: the string's last character is the
forward slash. -/
def endsWithSlash (s : String) : Bool :=
  match s.data.getLast? with
  | some c => c = '/'
  | none => false

/-- `validate_url` (`options.rs` lines 180-197), parameterized by the
external `url::Url::parse` (`parse`), which is not part of this
module.  The source returns unit and the host stores the argument
unchanged on success; the model returns the stored string, which is
always the argument itself (no normalization). -/
def validate_url (parse : String → Except String Unit) (url : String) :
    Except UrlError String :=
  if url = "default" then .ok url
  else if endsWithSlash url = false then .error .missingTrailingSlash
  else
    match parse url with
    | .error e => .error (.malformedUrl e)
    | .ok _ => .ok url

/-- `validate_url`'s C entry: the argument arrives as a NUL-terminated
byte string and `CStr::to_str().expect(..)` runs before any URL rule
(`options.rs` lines 181-183). -/
def validate_url_c (parse : String → Except String Unit) (bytes : List Nat) :
    Except UrlError String :=
  match Utf8.decode? bytes with
  | none => .error .invalidUtf8
  | some s => validate_url parse s

theorem char_toNat_valid (c : Char) :
    c.toNat < 0xD800 ∨ (0xDFFF < c.toNat ∧ c.toNat < 0x110000) := by
  rcases c.valid with h | ⟨h1, h2⟩
  · left
    exact h
  · right
    exact ⟨h1, h2⟩

theorem Utf8.decodeAux_encodeChar_append (c : Char) (l : List Nat) :
    Utf8.decodeAux none (Utf8.encodeChar c ++ l) =
      (Utf8.decodeAux none l).map fun cs => c :: cs := by
  have hv := char_toNat_valid c
  by_cases h1 : c.toNat < 0x80
  · have he : Utf8.encodeChar c = [c.toNat] := by
      simp [Utf8.encodeChar, h1]
    rw [he, List.cons_append, List.nil_append]
    simp only [Utf8.decodeAux, h1, if_true, ite_true, Char.ofNat_toNat]
  · by_cases h2 : c.toNat < 0x800
    · have he : Utf8.encodeChar c =
          [0xC0 + c.toNat / 64, 0x80 + c.toNat % 64] := by
        simp [Utf8.encodeChar, h1, h2]
    
      have ha : ¬(0xC0 + c.toNat / 64 < 0x80) := by omega
      have hb : ¬(0xC0 + c.toNat / 64 < 0xC0) := by omega
      have hc : 0xC0 + c.toNat / 64 < 0xE0 := by omega
      have hd : 0xC0 + c.toNat / 64 - 0xC0 = c.toNat / 64 := by omega
      have hcont : 0x80 ≤ 0x80 + c.toNat % 64 ∧ 0x80 + c.toNat % 64 < 0xC0 := by
        omega
      have hw : c.toNat / 64 * 64 + (0x80 + c.toNat % 64 - 0x80) = c.toNat := by
        omega
      have hfin : 0x80 ≤ c.toNat ∧ c.toNat < 0x110000 ∧
          ¬(0xD800 ≤ c.toNat ∧ c.toNat ≤ 0xDFFF) := by omega
      rw [he]
      simp only [List.cons_append, List.nil_append]
      simp only [Utf8.decodeAux, ha, hb, hc, hd, hcont, hw, hfin,
        if_true, if_false, ite_true, ite_false, and_self, and_true, true_and,
        not_false_eq_true, eq_self_iff_true, Char.ofNat_toNat]
    · by_cases h3 : c.toNat < 0x10000
      · have he : Utf8.encodeChar c =
            [0xE0 + c.toNat / 4096, 0x80 + c.toNat / 64 % 64,
              0x80 + c.toNat % 64] := by
          simp [Utf8.encodeChar, h1, h2, h3]
        have ha : ¬(0xE0 + c.toNat / 4096 < 0x80) := by omega
        have hb : ¬(0xE0 + c.toNat / 4096 < 0xC0) := by omega
        have hc : ¬(0xE0 + c.toNat / 4096 < 0xE0) := by omega
        have hd : 0xE0 + c.toNat / 4096 < 0xF0 := by omega
        have he' : 0xE0 + c.toNat / 4096 - 0xE0 = c.toNat / 4096 := by omega
        have hcont1 : 0x80 ≤ 0x80 + c.toNat / 64 % 64 ∧
            0x80 + c.toNat / 64 % 64 < 0xC0 := by omega
        have hcont2 : 0x80 ≤ 0x80 + c.toNat % 64 ∧
            0x80 + c.toNat % 64 < 0xC0 := by omega
        have hw1 : c.toNat / 4096 * 64 + (0x80 + c.toNat / 64 % 64 - 0x80) =
            c.toNat / 4096 * 64 + c.toNat / 64 % 64 := by omega
        have hw2 : (c.toNat / 4096 * 64 + c.toNat / 64 % 64) * 64 +
            (0x80 + c.toNat % 64 - 0x80) = c.toNat := by omega
        have hfin : 0x800 ≤ c.toNat ∧ c.toNat < 0x110000 ∧
            ¬(0xD800 ≤ c.toNat ∧ c.toNat ≤ 0xDFFF) := by omega
        rw [he]
        simp only [List.cons_append, List.nil_append]
        have hk2 : ¬((2 : Nat) = 1) := by omega
        have hk21 : (2 : Nat) - 1 = 1 := by omega
        simp only [Utf8.decodeAux, ha, hb, hc, hd, he', hcont1, hcont2,
          hw1, hw2, hfin, hk2, hk21, if_true, if_false, ite_true, ite_false,
          and_self, and_true, true_and, not_false_eq_true, eq_self_iff_true,
          Char.ofNat_toNat]
      · have he : Utf8.encodeChar c =
            [0xF0 + c.toNat / 262144, 0x80 + c.toNat / 4096 % 64,
              0x80 + c.toNat / 64 % 64, 0x80 + c.toNat % 64] := by
          simp [Utf8.encodeChar, h1, h2, h3]
        have ha : ¬(0xF0 + c.toNat / 262144 < 0x80) := by omega
        have hb : ¬(0xF0 + c.toNat / 262144 < 0xC0) := by omega
        have hc : ¬(0xF0 + c.toNat / 262144 < 0xE0) := by omega
        have hd : ¬(0xF0 + c.toNat / 262144 < 0xF0) := by omega
        have he' : 0xF0 + c.toNat / 262144 - 0xF0 = c.toNat / 262144 := by
          omega
        have hcont1 : 0x80 ≤ 0x80 + c.toNat / 4096 % 64 ∧
            0x80 + c.toNat / 4096 % 64 < 0xC0 := by omega
        have hcont2 : 0x80 ≤ 0x80 + c.toNat / 64 % 64 ∧
            0x80 + c.toNat / 64 % 64 < 0xC0 := by omega
        have hcont3 : 0x80 ≤ 0x80 + c.toNat % 64 ∧
            0x80 + c.toNat % 64 < 0xC0 := by omega
        have hw1 : c.toNat / 262144 * 64 + (0x80 + c.toNat / 4096 % 64 - 0x80) =
            c.toNat / 262144 * 64 + c.toNat / 4096 % 64 := by omega
        have hw2 : (c.toNat / 262144 * 64 + c.toNat / 4096 % 64) * 64 +
            (0x80 + c.toNat / 64 % 64 - 0x80) =
            (c.toNat / 262144 * 64 + c.toNat / 4096 % 64) * 64 +
              c.toNat / 64 % 64 := by omega
        have hw3 : ((c.toNat / 262144 * 64 + c.toNat / 4096 % 64) * 64 +
            c.toNat / 64 % 64) * 64 + (0x80 + c.toNat % 64 - 0x80) =
            c.toNat := by omega
        have hfin : 0x10000 ≤ c.toNat ∧ c.toNat < 0x110000 ∧
            ¬(0xD800 ≤ c.toNat ∧ c.toNat ≤ 0xDFFF) := by omega
        rw [he]
        simp only [List.cons_append, List.nil_append]
        have hk3 : ¬((3 : Nat) = 1) := by omega
        have hk31 : (3 : Nat) - 1 = 2 := by omega
        have hk2 : ¬((2 : Nat) = 1) := by omega
        have hk21 : (2 : Nat) - 1 = 1 := by omega
        simp only [Utf8.decodeAux, ha, hb, hc, hd, he', hcont1, hcont2,
          hcont3, hw1, hw2, hw3, hfin, hk3, hk31, hk2, hk21, if_true,
          if_false, ite_true, ite_false, and_self, and_true, true_and,
          not_false_eq_true, eq_self_iff_true, Char.ofNat_toNat]

theorem Utf8.decodeList?_encodeList (cs : List Char) :
    Utf8.decodeList? (Utf8.encodeList cs) = some cs := by
  induction cs with
  | nil => rfl
  | cons c cs ih =>
    rw [Utf8.encodeList]
    show Utf8.decodeAux none (Utf8.encodeChar c ++ Utf8.encodeList cs) = _
    rw [Utf8.decodeAux_encodeChar_append]
    show (Utf8.decodeList? (Utf8.encodeList cs)).map _ = _
    rw [ih]
    rfl

theorem Utf8.decode?_encode (s : String) :
    Utf8.decode? (Utf8.encode s) = some s := by
  rw [Utf8.decode?, Utf8.encode, Utf8.decodeList?_encodeList]
  rfl

theorem Utf8.encodeChar_ne_zero (c : Char) (hc : c.toNat ≠ 0) :
    ∀ b ∈ Utf8.encodeChar c, b ≠ 0 := by
  intro b hb
  by_cases h1 : c.toNat < 0x80
  · simp [Utf8.encodeChar, h1] at hb
    omega
  · by_cases h2 : c.toNat < 0x800
    · simp [Utf8.encodeChar, h1, h2] at hb
      rcases hb with h | h <;> omega
    · by_cases h3 : c.toNat < 0x10000
      · simp [Utf8.encodeChar, h1, h2, h3] at hb
        rcases hb with h | h | h <;> omega
      · simp [Utf8.encodeChar, h1, h2, h3] at hb
        rcases hb with h | h | h | h <;> omega

theorem Utf8.encodeList_ne_zero (cs : List Char) (hc : ∀ c ∈ cs, c.toNat ≠ 0) :
    ∀ b ∈ Utf8.encodeList cs, b ≠ 0 := by
  induction cs with
  | nil => intro b hb; cases hb
  | cons c cs ih =>
    intro b hb
    rw [Utf8.encodeList] at hb
    rcases List.mem_append.mp hb with h | h
    · exact Utf8.encodeChar_ne_zero c (hc c (List.mem_cons_self c cs)) b h
    · exact ih (fun d hd => hc d (List.mem_cons_of_mem c hd)) b h

/-- A string a C-string round trip can preserve: none of its
characters is the NUL scalar. -/
def nulFree (s : String) : Prop :=
  ∀ c ∈ s.data, c.toNat ≠ 0

theorem Utf8.encode_ne_zero (s : String) (hs : nulFree s) :
    ∀ b ∈ Utf8.encode s, b ≠ 0 :=
  Utf8.encodeList_ne_zero s.data hs

theorem cstrScanLen_prefix_nul (xs ys : List Nat) (h : ∀ b ∈ xs, b ≠ 0) :
    cstrScanLen (xs ++ 0 :: ys) = some xs.length := by
  induction xs with
  | nil => rfl
  | cons x xs ih =>
    rw [List.cons_append, cstrScanLen]
    rw [if_neg (h x (List.mem_cons_self x xs))]
    rw [ih fun b hb => h b (List.mem_cons_of_mem x hb)]
    rfl

/-- A resolved option set: the (name, value) pairs the host's generic
reloption parser hands to the encoder.  `none` marks an omitted
option. -/
structure OptionSet where
  url : Option String
  type_name : Option String
  refresh_interval : Option String
  «alias» : Option String
  uuid : Option String
  optimize_after : Option Int
  compression_level : Option Int
  shards : Option Int
  replicas : Option Int
  bulk_concurrency : Option Int
  batch_size : Option Int
  llapi : Option Bool

/-- The byte span a string option occupies in the trailing region: its
UTF-8 bytes plus the terminating NUL; empty for an omitted option. -/
def strSpan : Option String → List Nat
  | none => []
  | some v => Utf8.encode v ++ [0]

/-- Modelled from the spec: the block encoder (spec sections 4.2 and 6).
The source delegates the actual buffer construction to the host's
`allocateReloptStruct`/`fillRelOptions` (postgres code outside this
repository); per the spec it lays out the header followed by each
present string value NUL-terminated, in the order the offsets appear
in the header (url, type_name, refresh_interval, alias, uuid), records
each string's absolute byte offset in its header slot (0 when the
option is omitted), and embeds the registered defaults for omitted
int/bool options (`init`, `options.rs` lines 294-400). -/
def encodeOptions (numCpus : Int) (s : OptionSet) : ZDBIndexOptions :=
  let uSpan := strSpan s.url
  let tSpan := strSpan s.type_name
  let rSpan := strSpan s.refresh_interval
  let aSpan := strSpan s.«alias»
  { url_offset := if s.url.isSome then (headerSize : Int) else 0
    type_name_offset :=
      if s.type_name.isSome then (headerSize : Int) + uSpan.length else 0
    refresh_interval_offset :=
      if s.refresh_interval.isSome then
        (headerSize : Int) + uSpan.length + tSpan.length
      else 0
    alias_offset :=
      if s.«alias».isSome then
        (headerSize : Int) + uSpan.length + tSpan.length + rSpan.length
      else 0
    uuid_offset :=
      if s.uuid.isSome then
        (headerSize : Int) + uSpan.length + tSpan.length + rSpan.length +
          aSpan.length
      else 0
    optimize_after := s.optimize_after.getD DEFAULT_OPTIMIZE_AFTER
    compression_level := s.compression_level.getD DEFAULT_COMPRESSION_LEVEL
    shards := s.shards.getD DEFAULT_SHARDS
    replicas := s.replicas.getD ZDB_DEFAULT_REPLICAS_GUC
    bulk_concurrency := s.bulk_concurrency.getD numCpus
    batch_size := s.batch_size.getD DEFAULT_BATCH_SIZE
    llapi := s.llapi.getD false
    trailing := uSpan ++ tSpan ++ rSpan ++ aSpan ++ strSpan s.uuid
    beyond := [] }

/-- A string option value that can live in a NUL-terminated C string:
either omitted, or free of interior NUL scalars. -/
def optStrOk : Option String → Prop
  | none => True
  | some v => nulFree v

instance (o : Option String) : Decidable (optStrOk o) :=
  match o with
  | none => .isTrue trivial
  | some v => inferInstanceAs (Decidable (∀ c ∈ v.data, c.toNat ≠ 0))

/-- An option set all of whose supplied strings can live in a
NUL-terminated C string (no interior NUL scalar). -/
def OptionSet.valid (s : OptionSet) : Prop :=
  optStrOk s.url ∧ optStrOk s.type_name ∧ optStrOk s.refresh_interval ∧
    optStrOk s.«alias» ∧ optStrOk s.uuid

instance (s : OptionSet) : Decidable s.valid := by
  unfold OptionSet.valid
  infer_instance

theorem ZDBIndexOptions.readCStr_at (o : ZDBIndexOptions) (pre post : List Nat)
    (v : String) (hv : nulFree v)
    (ht : o.mem = pre ++ (Utf8.encode v ++ 0 :: post)) :
    o.readCStr ((headerSize : Int) + pre.length) = .ok v := by
  rw [ZDBIndexOptions.readCStr]
  have hge : ¬((headerSize : Int) + pre.length < (headerSize : Int)) := by
    simp only [headerSize]
    omega
  rw [if_neg hge]
  have htn : ((headerSize : Int) + pre.length).toNat - headerSize =
      pre.length := by
    simp only [headerSize]
    omega
  simp only [htn, ht, List.drop_left]
  rw [cstrScanLen_prefix_nul _ _ (Utf8.encode_ne_zero v hv)]
  simp only [List.take_left]
  rw [Utf8.decode?_encode]

theorem ZDBIndexOptions.get_str_at (o : ZDBIndexOptions) (pre post : List Nat)
    (v : String) (hv : nulFree v)
    (ht : o.mem = pre ++ (Utf8.encode v ++ 0 :: post)) :
    o.get_str ((headerSize : Int) + pre.length) = .ok (some v) := by
  rw [ZDBIndexOptions.get_str]
  have hne : ¬((headerSize : Int) + pre.length = 0) := by
    simp only [headerSize]
    omega
  rw [if_neg hne, ZDBIndexOptions.readCStr_at o pre post v hv ht]
  rfl

theorem ZDBIndexOptions.readCStr_at' (o : ZDBIndexOptions) (off : Int)
    (pre post : List Nat) (v : String) (hv : nulFree v)
    (hoff : off = (headerSize : Int) + pre.length)
    (ht : o.mem = pre ++ (Utf8.encode v ++ 0 :: post)) :
    o.readCStr off = .ok v := by
  rw [hoff]
  exact ZDBIndexOptions.readCStr_at o pre post v hv ht

theorem ZDBIndexOptions.get_str_at' (o : ZDBIndexOptions) (off : Int)
    (pre post : List Nat) (v : String) (hv : nulFree v)
    (hoff : off = (headerSize : Int) + pre.length)
    (ht : o.mem = pre ++ (Utf8.encode v ++ 0 :: post)) :
    o.get_str off = .ok (some v) := by
  rw [hoff]
  exact ZDBIndexOptions.get_str_at o pre post v hv ht

theorem encodeOptions_url_some (numCpus : Int) (s : OptionSet) (u : String)
    (hu : s.url = some u) (hv : nulFree u) :
    (encodeOptions numCpus s).url = .ok u := by
  rw [ZDBIndexOptions.url]
  have ho : (encodeOptions numCpus s).url_offset = (headerSize : Int) := by
    simp [encodeOptions, hu]
  rw [ho, if_neg (show ¬((headerSize : Int) = 0) by simp [headerSize])]
  refine ZDBIndexOptions.readCStr_at' _ _ []
    (strSpan s.type_name ++ strSpan s.refresh_interval ++
      strSpan s.«alias» ++ strSpan s.uuid) u hv ?_ ?_
  · simp
  · simp [encodeOptions, ZDBIndexOptions.mem, hu, strSpan, List.append_assoc]

theorem encodeOptions_url_none (numCpus : Int) (s : OptionSet)
    (hu : s.url = none) :
    (encodeOptions numCpus s).url = .ok DEFAULT_URL := by
  simp [ZDBIndexOptions.url, encodeOptions, hu]

theorem encodeOptions_type_name_some (numCpus : Int) (s : OptionSet)
    (t : String) (ht : s.type_name = some t) (hv : nulFree t) :
    (encodeOptions numCpus s).type_name = .ok t := by
  rw [ZDBIndexOptions.type_name]
  have ho : (encodeOptions numCpus s).type_name_offset =
      (headerSize : Int) + (strSpan s.url).length := by
    simp [encodeOptions, ht]
  rw [ho, if_neg (show ¬((headerSize : Int) + (strSpan s.url).length = 0) by
    simp only [headerSize]
    omega)]
  refine ZDBIndexOptions.readCStr_at' _ _ (strSpan s.url)
    (strSpan s.refresh_interval ++ strSpan s.«alias» ++ strSpan s.uuid)
    t hv ?_ ?_
  · simp
  · simp [encodeOptions, ZDBIndexOptions.mem, ht, strSpan, List.append_assoc]

theorem encodeOptions_type_name_none (numCpus : Int) (s : OptionSet)
    (ht : s.type_name = none) :
    (encodeOptions numCpus s).type_name = .ok DEFAULT_TYPE_NAME := by
  simp [ZDBIndexOptions.type_name, encodeOptions, ht]

theorem encodeOptions_refresh_interval_some (numCpus : Int) (s : OptionSet)
    (r : String) (hr : s.refresh_interval = some r) (hv : nulFree r) :
    (encodeOptions numCpus s).refresh_interval = .ok r := by
  rw [ZDBIndexOptions.refresh_interval]
  have ho : (encodeOptions numCpus s).refresh_interval_offset =
      (headerSize : Int) + (strSpan s.url ++ strSpan s.type_name).length := by
    simp [encodeOptions, hr, List.length_append]
    ring
  rw [ho, if_neg (show
    ¬((headerSize : Int) + (strSpan s.url ++ strSpan s.type_name).length = 0) by
    simp only [headerSize]
    omega)]
  refine ZDBIndexOptions.readCStr_at' _ _
    (strSpan s.url ++ strSpan s.type_name)
    (strSpan s.«alias» ++ strSpan s.uuid) r hv ?_ ?_
  · simp
  · simp [encodeOptions, ZDBIndexOptions.mem, hr, strSpan, List.append_assoc]

theorem encodeOptions_refresh_interval_none (numCpus : Int) (s : OptionSet)
    (hr : s.refresh_interval = none) :
    (encodeOptions numCpus s).refresh_interval =
      .ok DEFAULT_REFRESH_INTERVAL := by
  simp [ZDBIndexOptions.refresh_interval, encodeOptions, hr]

theorem encodeOptions_alias_some (numCpus : Int) (s : OptionSet) (a : String)
    (ha : s.«alias» = some a) (hv : nulFree a) (id : ResolvedIdentity) :
    (encodeOptions numCpus s).alias id = .ok a := by
  have hg : (encodeOptions numCpus s).get_str
      (encodeOptions numCpus s).alias_offset = .ok (some a) := by
    have ho : (encodeOptions numCpus s).alias_offset =
        (headerSize : Int) + (strSpan s.url ++ strSpan s.type_name ++
          strSpan s.refresh_interval).length := by
      simp [encodeOptions, ha, List.length_append]
      ring
    rw [ho]
    refine ZDBIndexOptions.get_str_at' _ _
      (strSpan s.url ++ strSpan s.type_name ++ strSpan s.refresh_interval)
      (strSpan s.uuid) a hv rfl ?_
    simp [encodeOptions, ZDBIndexOptions.mem, ha, strSpan, List.append_assoc]
  rw [ZDBIndexOptions.alias, hg]

theorem encodeOptions_alias_none (numCpus : Int) (s : OptionSet)
    (ha : s.«alias» = none) (id : ResolvedIdentity) :
    (encodeOptions numCpus s).alias id = .ok (derivedAlias id) := by
  have hg : (encodeOptions numCpus s).get_str
      (encodeOptions numCpus s).alias_offset = .ok none := by
    simp [encodeOptions, ha, ZDBIndexOptions.get_str]
  rw [ZDBIndexOptions.alias, hg]

theorem encodeOptions_uuid_some (numCpus : Int) (s : OptionSet) (w : String)
    (hw : s.uuid = some w) (hv : nulFree w) (id : ResolvedIdentity) :
    (encodeOptions numCpus s).uuid id = .ok w := by
  have hg : (encodeOptions numCpus s).get_str
      (encodeOptions numCpus s).uuid_offset = .ok (some w) := by
    have ho : (encodeOptions numCpus s).uuid_offset =
        (headerSize : Int) + (strSpan s.url ++ strSpan s.type_name ++
          strSpan s.refresh_interval ++ strSpan s.«alias»).length := by
      simp [encodeOptions, hw, List.length_append]
      ring
    rw [ho]
    refine ZDBIndexOptions.get_str_at' _ _
      (strSpan s.url ++ strSpan s.type_name ++ strSpan s.refresh_interval ++
        strSpan s.«alias») [] w hv rfl ?_
    simp [encodeOptions, ZDBIndexOptions.mem, hw, strSpan, List.append_assoc]
  rw [ZDBIndexOptions.uuid, hg]

theorem encodeOptions_uuid_none (numCpus : Int) (s : OptionSet)
    (hw : s.uuid = none) (id : ResolvedIdentity) :
    (encodeOptions numCpus s).uuid id = .ok (derivedUuid id) := by
  have hg : (encodeOptions numCpus s).get_str
      (encodeOptions numCpus s).uuid_offset = .ok none := by
    simp [encodeOptions, hw, ZDBIndexOptions.get_str]
  rw [ZDBIndexOptions.uuid, hg]

/-- C1: encoding a valid option set and decoding it through the typed
accessors yields back exactly the supplied values, and every omitted
field decodes to its documented default (strings fall back to their
default constants, alias/uuid to derivation, scalars to the registered
defaults, bulk_concurrency to the core count). -/
theorem C1_encode_decode_roundtrip (numCpus : Int) (s : OptionSet)
    (hs : s.valid) :
    (∀ u, s.url = some u → (encodeOptions numCpus s).url = .ok u) ∧
    (s.url = none → (encodeOptions numCpus s).url = .ok DEFAULT_URL) ∧
    (∀ t, s.type_name = some t →
      (encodeOptions numCpus s).type_name = .ok t) ∧
    (s.type_name = none →
      (encodeOptions numCpus s).type_name = .ok DEFAULT_TYPE_NAME) ∧
    (∀ r, s.refresh_interval = some r →
      (encodeOptions numCpus s).refresh_interval = .ok r) ∧
    (s.refresh_interval = none →
      (encodeOptions numCpus s).refresh_interval =
        .ok DEFAULT_REFRESH_INTERVAL) ∧
    (∀ a id, s.«alias» = some a →
      (encodeOptions numCpus s).alias id = .ok a) ∧
    (∀ id, s.«alias» = none →
      (encodeOptions numCpus s).alias id = .ok (derivedAlias id)) ∧
    (∀ w id, s.uuid = some w → (encodeOptions numCpus s).uuid id = .ok w) ∧
    (∀ id, s.uuid = none →
      (encodeOptions numCpus s).uuid id = .ok (derivedUuid id)) ∧
    (∀ x, s.optimize_after = some x →
      (encodeOptions numCpus s).optimize_after = x) ∧
    (s.optimize_after = none →
      (encodeOptions numCpus s).optimize_after = DEFAULT_OPTIMIZE_AFTER) ∧
    (∀ x, s.compression_level = some x →
      (encodeOptions numCpus s).compression_level = x) ∧
    (s.compression_level = none →
      (encodeOptions numCpus s).compression_level =
        DEFAULT_COMPRESSION_LEVEL) ∧
    (∀ x, s.shards = some x → (encodeOptions numCpus s).shards = x) ∧
    (s.shards = none → (encodeOptions numCpus s).shards = DEFAULT_SHARDS) ∧
    (∀ x, s.replicas = some x → (encodeOptions numCpus s).replicas = x) ∧
    (s.replicas = none →
      (encodeOptions numCpus s).replicas = ZDB_DEFAULT_REPLICAS_GUC) ∧
    (∀ x, s.bulk_concurrency = some x →
      (encodeOptions numCpus s).bulk_concurrency = x) ∧
    (s.bulk_concurrency = none →
      (encodeOptions numCpus s).bulk_concurrency = numCpus) ∧
    (∀ x, s.batch_size = some x → (encodeOptions numCpus s).batch_size = x) ∧
    (s.batch_size = none →
      (encodeOptions numCpus s).batch_size = DEFAULT_BATCH_SIZE) ∧
    (∀ x, s.llapi = some x → (encodeOptions numCpus s).llapi = x) ∧
    (s.llapi = none → (encodeOptions numCpus s).llapi = false) := by
  obtain ⟨hU, hT, hR, hA, hW⟩ := hs
  refine ⟨?_, ?_, ?_, ?_, ?_, ?_, ?_, ?_, ?_, ?_, ?_, ?_, ?_, ?_, ?_, ?_,
    ?_, ?_, ?_, ?_, ?_, ?_, ?_, ?_⟩
  · intro u hu
    exact encodeOptions_url_some numCpus s u hu (by rw [hu] at hU; exact hU)
  · intro hu
    exact encodeOptions_url_none numCpus s hu
  · intro t ht
    exact encodeOptions_type_name_some numCpus s t ht
      (by rw [ht] at hT; exact hT)
  · intro ht
    exact encodeOptions_type_name_none numCpus s ht
  · intro r hr
    exact encodeOptions_refresh_interval_some numCpus s r hr
      (by rw [hr] at hR; exact hR)
  · intro hr
    exact encodeOptions_refresh_interval_none numCpus s hr
  · intro a id ha
    exact encodeOptions_alias_some numCpus s a ha (by rw [ha] at hA; exact hA)
      id
  · intro id ha
    exact encodeOptions_alias_none numCpus s ha id
  · intro w id hw
    exact encodeOptions_uuid_some numCpus s w hw (by rw [hw] at hW; exact hW)
      id
  · intro id hw
    exact encodeOptions_uuid_none numCpus s hw id
  · intro x hx
    simp [encodeOptions, hx]
  · intro hx
    simp [encodeOptions, hx]
  · intro x hx
    simp [encodeOptions, hx]
  · intro hx
    simp [encodeOptions, hx]
  · intro x hx
    simp [encodeOptions, hx]
  · intro hx
    simp [encodeOptions, hx]
  · intro x hx
    simp [encodeOptions, hx]
  · intro hx
    simp [encodeOptions, hx]
  · intro x hx
    simp [encodeOptions, hx]
  · intro hx
    simp [encodeOptions, hx]
  · intro x hx
    simp [encodeOptions, hx]
  · intro hx
    simp [encodeOptions, hx]
  · intro x hx
    simp [encodeOptions, hx]
  · intro hx
    simp [encodeOptions, hx]

/-- Witness for C1 at a concrete option set (mirroring the source's
`test_index_options` test). -/
theorem C1_encode_decode_roundtrip_witness :
    (encodeOptions 8 ⟨some "http://localhost:9200/", some "test_type_name",
      some "5s", some "test_alias", some "test_uuid", none, none, none, none,
      none, none, none⟩).url = .ok "http://localhost:9200/" ∧
    (encodeOptions 8 ⟨some "http://localhost:9200/", some "test_type_name",
      some "5s", some "test_alias", some "test_uuid", none, none, none, none,
      none, none, none⟩).type_name = .ok "test_type_name" ∧
    (encodeOptions 8 ⟨some "http://localhost:9200/", some "test_type_name",
      some "5s", some "test_alias", some "test_uuid", none, none, none, none,
      none, none, none⟩).refresh_interval = .ok "5s" ∧
    (encodeOptions 8 ⟨some "http://localhost:9200/", some "test_type_name",
      some "5s", some "test_alias", some "test_uuid", none, none, none, none,
      none, none, none⟩).alias ⟨"db", "ns", "tbl", "idx", 1, 2, 3, 4⟩ =
      .ok "test_alias" ∧
    (encodeOptions 8 ⟨some "http://localhost:9200/", some "test_type_name",
      some "5s", some "test_alias", some "test_uuid", none, none, none, none,
      none, none, none⟩).uuid ⟨"db", "ns", "tbl", "idx", 1, 2, 3, 4⟩ =
      .ok "test_uuid" ∧
    (encodeOptions 8 ⟨some "http://localhost:9200/", some "test_type_name",
      some "5s", some "test_alias", some "test_uuid", none, none, none, none,
      none, none, none⟩).shards = DEFAULT_SHARDS ∧
    (encodeOptions 8 ⟨some "http://localhost:9200/", some "test_type_name",
      some "5s", some "test_alias", some "test_uuid", none, none, none, none,
      none, none, none⟩).bulk_concurrency = 8 := by
  obtain ⟨h1, h2, h3, h4, h5, h6, h7, h8, h9, h10, h11, h12, h13, h14, h15,
    h16, h17, h18, h19, h20, h21, h22, h23, h24⟩ :=
    C1_encode_decode_roundtrip 8 ⟨some "http://localhost:9200/",
      some "test_type_name", some "5s", some "test_alias", some "test_uuid",
      none, none, none, none, none, none, none⟩ (by decide)
  exact ⟨h1 _ rfl, h3 _ rfl, h5 _ rfl, h7 _ _ rfl, h9 _ _ rfl, h16 rfl,
    h20 rfl⟩

/-- C3: `validate_url` applies its rules in order — the exact input
"default" passes; otherwise an input not ending in a forward slash
fails with MissingTrailingSlash; otherwise an input the URL parser
rejects fails with MalformedUrl carrying the parser's message; an
input passing all three checks is accepted and stored verbatim. -/
theorem C3_validate_url_rules (parse : String → Except String Unit)
    (url : String) :
    (url = "default" → validate_url parse url = .ok "default") ∧
    (url ≠ "default" → endsWithSlash url = false →
      validate_url parse url = .error .missingTrailingSlash) ∧
    (∀ e, url ≠ "default" → endsWithSlash url = true → parse url = .error e →
      validate_url parse url = .error (.malformedUrl e)) ∧
    (url ≠ "default" → endsWithSlash url = true → parse url = .ok () →
      validate_url parse url = .ok url) := by
  refine ⟨?_, ?_, ?_, ?_⟩
  · intro h
    subst h
    rfl
  · intro h1 h2
    simp [validate_url, h1, h2]
  · intro e h1 h2 h3
    simp [validate_url, h1, h2, h3]
  · intro h1 h2 h3
    simp [validate_url, h1, h2, h3]

/-- Witness for C3 on the spec's four test inputs. -/
theorem C3_validate_url_rules_witness :
    validate_url (fun _ => .ok ()) "default" = .ok "default" ∧
    validate_url (fun _ => .ok ()) "http://localhost:9200" =
      .error .missingTrailingSlash ∧
    validate_url (fun _ => .error "relative URL without a base")
      "not a url/" = .error (.malformedUrl "relative URL without a base") ∧
    validate_url (fun _ => .ok ()) "http://localhost:9200/" =
      .ok "http://localhost:9200/" := by
  refine ⟨(C3_validate_url_rules (fun _ => .ok ()) "default").1 rfl,
    (C3_validate_url_rules (fun _ => .ok ()) "http://localhost:9200").2.1
      (by decide) (by decide),
    (C3_validate_url_rules (fun _ => .error "relative URL without a base")
      "not a url/").2.2.1 "relative URL without a base" (by decide)
      (by decide) rfl,
    (C3_validate_url_rules (fun _ => .ok ()) "http://localhost:9200/").2.2.2
      (by decide) (by decide) rfl⟩

/-- C10: a non-UTF-8 argument makes `validate_url` fail during the
initial `CStr::to_str().expect(..)` conversion, before any of the
three URL rules runs — whatever the URL parser would do. -/
theorem C10_validate_url_c_non_utf8 (parse : String → Except String Unit)
    (bytes : List Nat) (h : Utf8.decode? bytes = none) :
    validate_url_c parse bytes = .error .invalidUtf8 := by
  simp [validate_url_c, h]

/-- Witness for C10 at the invalid byte 0xFF. -/
theorem C10_validate_url_c_non_utf8_witness :
    validate_url_c (fun _ => .ok ()) [0xFF] = .error .invalidUtf8 :=
  C10_validate_url_c_non_utf8 (fun _ => .ok ()) [0xFF] (by decide)

/-- C4: loading an index relation with no stored options block
synthesizes a fully-defaulted instance: scalar accessors give
compression_level=1, shards=5, replicas=0, bulk_concurrency = the
process-start core count, batch_size=8388608, optimize_after=0,
llapi=false, and string accessors give url="default", type_name="doc",
refresh_interval="-1". -/
theorem C4_load_defaults (numCpus : Int) (rel : RelationData)
    (hidx : rel.rd_index = some ()) (hopt : rel.rd_options = none) :
    ∃ o, ZDBIndexOptions.fromRelation numCpus rel = .ok o ∧
      o.compression_level = 1 ∧ o.shards = 5 ∧ o.replicas = 0 ∧
      o.bulk_concurrency = numCpus ∧ o.batch_size = 8388608 ∧
      o.optimize_after = 0 ∧ o.llapi = false ∧
      o.url = .ok "default" ∧ o.type_name = .ok "doc" ∧
      o.refresh_interval = .ok "-1" := by
  refine ⟨⟨0, 0, 0, 0, 0, DEFAULT_OPTIMIZE_AFTER, DEFAULT_COMPRESSION_LEVEL,
    DEFAULT_SHARDS, ZDB_DEFAULT_REPLICAS_GUC, numCpus, DEFAULT_BATCH_SIZE,
    false, [], []⟩, ?_, rfl, rfl, rfl, rfl, rfl, rfl, rfl, rfl, rfl, rfl⟩
  simp [ZDBIndexOptions.fromRelation, hidx, hopt]

/-- Witness for C4 at a concrete optionless index relation. -/
theorem C4_load_defaults_witness :
    ∃ o, ZDBIndexOptions.fromRelation 8 ⟨some (), none⟩ = .ok o ∧
      o.compression_level = 1 ∧ o.shards = 5 ∧ o.replicas = 0 ∧
      o.bulk_concurrency = 8 ∧ o.batch_size = 8388608 ∧
      o.optimize_after = 0 ∧ o.llapi = false ∧
      o.url = .ok "default" ∧ o.type_name = .ok "doc" ∧
      o.refresh_interval = .ok "-1" :=
  C4_load_defaults 8 ⟨some (), none⟩ rfl rfl

/-- C8: loading a relation that is not an index fails with
InvalidRelationKind and produces no options instance. -/
theorem C8_load_non_index (numCpus : Int) (rel : RelationData)
    (h : rel.rd_index = none) :
    ZDBIndexOptions.fromRelation numCpus rel = .error .invalidRelationKind ∧
      ∀ o, ZDBIndexOptions.fromRelation numCpus rel ≠ .ok o := by
  have he : ZDBIndexOptions.fromRelation numCpus rel =
      .error .invalidRelationKind := by
    simp [ZDBIndexOptions.fromRelation, h]
  refine ⟨he, ?_⟩
  intro o hcontra
  rw [he] at hcontra
  cases hcontra

/-- Witness for C8 at a concrete non-index relation. -/
theorem C8_load_non_index_witness :
    ZDBIndexOptions.fromRelation 8 ⟨none, none⟩ =
        .error .invalidRelationKind ∧
      ∀ o, ZDBIndexOptions.fromRelation 8 ⟨none, none⟩ ≠ .ok o :=
  C8_load_non_index 8 ⟨none, none⟩ rfl

/-- C7: a string field whose header offset is the sentinel 0 decodes
to its documented default — url to "default", type_name to "doc",
refresh_interval to "-1" — and a sentinel alias/uuid yields no stored
value, so the accessor falls back to derivation. -/
theorem C7_sentinel_defaults (o : ZDBIndexOptions) (id : ResolvedIdentity) :
    (o.url_offset = 0 → o.url = .ok "default") ∧
    (o.type_name_offset = 0 → o.type_name = .ok "doc") ∧
    (o.refresh_interval_offset = 0 → o.refresh_interval = .ok "-1") ∧
    (o.alias_offset = 0 → o.get_str o.alias_offset = .ok none ∧
      o.alias id = .ok (derivedAlias id)) ∧
    (o.uuid_offset = 0 → o.get_str o.uuid_offset = .ok none ∧
      o.uuid id = .ok (derivedUuid id)) := by
  refine ⟨?_, ?_, ?_, ?_, ?_⟩
  · intro h
    simp [ZDBIndexOptions.url, h, DEFAULT_URL]
  · intro h
    simp [ZDBIndexOptions.type_name, h, DEFAULT_TYPE_NAME]
  · intro h
    simp [ZDBIndexOptions.refresh_interval, h, DEFAULT_REFRESH_INTERVAL]
  · intro h
    refine ⟨?_, ?_⟩
    · simp [ZDBIndexOptions.get_str, h]
    · simp [ZDBIndexOptions.alias, ZDBIndexOptions.get_str, h]
  · intro h
    refine ⟨?_, ?_⟩
    · simp [ZDBIndexOptions.get_str, h]
    · simp [ZDBIndexOptions.uuid, ZDBIndexOptions.get_str, h]

/-- Witness for C7 at a concrete all-sentinel block. -/
theorem C7_sentinel_defaults_witness :
    ((⟨0, 0, 0, 0, 0, 0, 1, 5, 0, 8, 8388608, false, [], []⟩ :
        ZDBIndexOptions).url = .ok "default") ∧
      ((⟨0, 0, 0, 0, 0, 0, 1, 5, 0, 8, 8388608, false, [], []⟩ :
        ZDBIndexOptions).alias ⟨"db", "ns", "tbl", "idx", 1, 2, 3, 4⟩ =
        .ok (derivedAlias ⟨"db", "ns", "tbl", "idx", 1, 2, 3, 4⟩)) := by
  have h := C7_sentinel_defaults
    ⟨0, 0, 0, 0, 0, 0, 1, 5, 0, 8, 8388608, false, [], []⟩
    ⟨"db", "ns", "tbl", "idx", 1, 2, 3, 4⟩
  exact ⟨h.1 rfl, (h.2.2.2.1 rfl).2⟩

/-- C5: `alias` returns the stored alias verbatim when the offset is
non-sentinel (and the read succeeds), and otherwise synthesizes
exactly `"{database}.{namespace}.{table}.{index}-{index_id}"` from the
resolved catalog identity. -/
theorem C5_alias_verbatim_or_derived (o : ZDBIndexOptions)
    (id : ResolvedIdentity) :
    (∀ a, o.alias_offset ≠ 0 → o.readCStr o.alias_offset = .ok a →
      o.alias id = .ok a) ∧
    (o.alias_offset = 0 →
      o.alias id = .ok (id.databaseName ++ "." ++ id.namespaceName ++ "." ++
        id.tableName ++ "." ++ id.indexName ++ "-" ++
        toString id.indexId)) := by
  constructor
  · intro a h1 h2
    simp [ZDBIndexOptions.alias, ZDBIndexOptions.get_str, h1, h2,
      Except.map]
  · intro h
    simp [ZDBIndexOptions.alias, ZDBIndexOptions.get_str, h, derivedAlias]

/-- Witness for C5: a stored alias is returned verbatim; a sentinel
alias derives from the identity. -/
theorem C5_alias_verbatim_or_derived_witness :
    ((⟨0, 0, 0, 56, 0, 0, 1, 5, 0, 8, 8388608, false, [97, 108, 0], []⟩ :
        ZDBIndexOptions).alias ⟨"db", "ns", "tbl", "idx", 1, 2, 3, 4⟩ =
      .ok "al") ∧
    ((⟨0, 0, 0, 0, 0, 0, 1, 5, 0, 8, 8388608, false, [], []⟩ :
        ZDBIndexOptions).alias ⟨"db", "ns", "tbl", "idx", 1, 2, 3, 4⟩ =
      .ok "db.ns.tbl.idx-4") := by
  constructor
  · exact (C5_alias_verbatim_or_derived
      ⟨0, 0, 0, 56, 0, 0, 1, 5, 0, 8, 8388608, false, [97, 108, 0], []⟩
      ⟨"db", "ns", "tbl", "idx", 1, 2, 3, 4⟩).1 "al" (by decide) rfl
  · exact (C5_alias_verbatim_or_derived
      ⟨0, 0, 0, 0, 0, 0, 1, 5, 0, 8, 8388608, false, [], []⟩
      ⟨"db", "ns", "tbl", "idx", 1, 2, 3, 4⟩).2 rfl

/-- C6: `uuid` returns the stored uuid verbatim when set, otherwise
synthesizes exactly the numeric string
`"{database_id}.{namespace_id}.{table_id}.{index_id}"`, and
`index_name` always returns the same string as `uuid`. -/
theorem C6_uuid_verbatim_or_derived (o : ZDBIndexOptions)
    (id : ResolvedIdentity) :
    (∀ u, o.uuid_offset ≠ 0 → o.readCStr o.uuid_offset = .ok u →
      o.uuid id = .ok u) ∧
    (o.uuid_offset = 0 →
      o.uuid id = .ok (toString id.databaseId ++ "." ++
        toString id.namespaceId ++ "." ++ toString id.tableId ++ "." ++
        toString id.indexId)) ∧
    o.index_name id = o.uuid id := by
  refine ⟨?_, ?_, rfl⟩
  · intro u h1 h2
    simp [ZDBIndexOptions.uuid, ZDBIndexOptions.get_str, h1, h2,
      Except.map]
  · intro h
    simp [ZDBIndexOptions.uuid, ZDBIndexOptions.get_str, h, derivedUuid]

/-- Witness for C6: a stored uuid is returned verbatim; a sentinel
uuid derives the numeric string; `index_name` agrees with `uuid`. -/
theorem C6_uuid_verbatim_or_derived_witness :
    ((⟨0, 0, 0, 0, 56, 0, 1, 5, 0, 8, 8388608, false, [117, 49, 0], []⟩ :
        ZDBIndexOptions).uuid ⟨"db", "ns", "tbl", "idx", 1, 2, 3, 4⟩ =
      .ok "u1") ∧
    ((⟨0, 0, 0, 0, 0, 0, 1, 5, 0, 8, 8388608, false, [], []⟩ :
        ZDBIndexOptions).uuid ⟨"db", "ns", "tbl", "idx", 1, 2, 3, 4⟩ =
      .ok "1.2.3.4") ∧
    ((⟨0, 0, 0, 0, 56, 0, 1, 5, 0, 8, 8388608, false, [117, 49, 0], []⟩ :
        ZDBIndexOptions).index_name ⟨"db", "ns", "tbl", "idx", 1, 2, 3, 4⟩ =
      (⟨0, 0, 0, 0, 56, 0, 1, 5, 0, 8, 8388608, false, [117, 49, 0], []⟩ :
        ZDBIndexOptions).uuid ⟨"db", "ns", "tbl", "idx", 1, 2, 3, 4⟩) := by
  refine ⟨?_, ?_, ?_⟩
  · exact (C6_uuid_verbatim_or_derived
      ⟨0, 0, 0, 0, 56, 0, 1, 5, 0, 8, 8388608, false, [117, 49, 0], []⟩
      ⟨"db", "ns", "tbl", "idx", 1, 2, 3, 4⟩).1 "u1" (by decide) rfl
  · exact (C6_uuid_verbatim_or_derived
      ⟨0, 0, 0, 0, 0, 0, 1, 5, 0, 8, 8388608, false, [], []⟩
      ⟨"db", "ns", "tbl", "idx", 1, 2, 3, 4⟩).2.1 rfl
  · exact (C6_uuid_verbatim_or_derived
      ⟨0, 0, 0, 0, 56, 0, 1, 5, 0, 8, 8388608, false, [117, 49, 0], []⟩
      ⟨"db", "ns", "tbl", "idx", 1, 2, 3, 4⟩).2.2

/-- C9: `alias` and `uuid` are deterministic — two invocations with
identical stored string fields and identical resolved identity give
byte-identical strings. -/
theorem C9_alias_uuid_deterministic (o₁ o₂ : ZDBIndexOptions)
    (id₁ id₂ : ResolvedIdentity)
    (ha : o₁.get_str o₁.alias_offset = o₂.get_str o₂.alias_offset)
    (hu : o₁.get_str o₁.uuid_offset = o₂.get_str o₂.uuid_offset)
    (hid : id₁ = id₂) :
    o₁.alias id₁ = o₂.alias id₂ ∧ o₁.uuid id₁ = o₂.uuid id₂ := by
  subst hid
  constructor
  · rw [ZDBIndexOptions.alias, ZDBIndexOptions.alias, ha]
  · rw [ZDBIndexOptions.uuid, ZDBIndexOptions.uuid, hu]

/-- Witness for C9 at two equal concrete invocations. -/
theorem C9_alias_uuid_deterministic_witness :
    ((⟨0, 0, 0, 56, 0, 0, 1, 5, 0, 8, 8388608, false, [97, 108, 0], []⟩ :
        ZDBIndexOptions).alias ⟨"db", "ns", "tbl", "idx", 1, 2, 3, 4⟩ =
      (⟨0, 0, 0, 56, 0, 0, 1, 5, 0, 8, 8388608, false, [97, 108, 0], []⟩ :
        ZDBIndexOptions).alias ⟨"db", "ns", "tbl", "idx", 1, 2, 3, 4⟩) ∧
    ((⟨0, 0, 0, 56, 0, 0, 1, 5, 0, 8, 8388608, false, [97, 108, 0], []⟩ :
        ZDBIndexOptions).uuid ⟨"db", "ns", "tbl", "idx", 1, 2, 3, 4⟩ =
      (⟨0, 0, 0, 56, 0, 0, 1, 5, 0, 8, 8388608, false, [97, 108, 0], []⟩ :
        ZDBIndexOptions).uuid ⟨"db", "ns", "tbl", "idx", 1, 2, 3, 4⟩) :=
  C9_alias_uuid_deterministic
    ⟨0, 0, 0, 56, 0, 0, 1, 5, 0, 8, 8388608, false, [97, 108, 0], []⟩
    ⟨0, 0, 0, 56, 0, 0, 1, 5, 0, 8, 8388608, false, [97, 108, 0], []⟩
    ⟨"db", "ns", "tbl", "idx", 1, 2, 3, 4⟩
    ⟨"db", "ns", "tbl", "idx", 1, 2, 3, 4⟩ rfl rfl rfl

/-- The absolute byte address (from the struct base) of the NUL byte
at which the `CStr::from_ptr` scan inside `readCStr` stops for a read
at `offset`: the scan touches every byte at addresses
`offset .. offset+len`.  `none` when the modelled memory holds no NUL
at or after the offset. -/
def ZDBIndexOptions.readSpanStop (o : ZDBIndexOptions) (offset : Int) :
    Option Nat :=
  (cstrScanLen (o.mem.drop (offset.toNat - headerSize))).map
    fun len => offset.toNat + len

theorem cstrScanLen_lt_length (l : List Nat) (len : Nat)
    (h : cstrScanLen l = some len) : len < l.length := by
  induction l generalizing len with
  | nil => cases h
  | cons b rest ih =>
    rw [cstrScanLen] at h
    by_cases hb : b = 0
    · rw [if_pos hb] at h
      cases h
      simp
    · rw [if_neg hb] at h
      cases hr : cstrScanLen rest with
      | none => rw [hr] at h; cases h
      | some m =>
        rw [hr] at h
        cases h
        have := ih m hr
        simp
        omega

theorem cstrScanLen_append_left (xs ys : List Nat) (len : Nat)
    (h : cstrScanLen xs = some len) :
    cstrScanLen (xs ++ ys) = some len := by
  induction xs generalizing len with
  | nil => cases h
  | cons b rest ih =>
    rw [cstrScanLen] at h
    rw [List.cons_append, cstrScanLen]
    by_cases hb : b = 0
    · rw [if_pos hb] at h ⊢
      exact h
    · rw [if_neg hb] at h ⊢
      cases hr : cstrScanLen rest with
      | none => rw [hr] at h; cases h
      | some m =>
        rw [hr] at h
        rw [ih m hr]
        exact h

/-- C2 (amended): for a block satisfying the documented layout
invariant — the non-zero offset addresses a span that is
NUL-terminated inside the block's trailing region — the C-string scan
stops inside the block (every byte it touches lies below the declared
block length), and the accessor fails with InvalidEncoding exactly
when the referenced span is not valid UTF-8, returning the decoded
span otherwise. -/
theorem C2_string_read_in_block (o : ZDBIndexOptions) (offset : Int)
    (len : Nat) (hoff : (headerSize : Int) ≤ offset)
    (hscan : cstrScanLen (o.trailing.drop (offset.toNat - headerSize)) =
      some len) :
    o.readSpanStop offset = some (offset.toNat + len) ∧
    offset.toNat + len < o.blockLen ∧
    (Utf8.decode? ((o.trailing.drop (offset.toNat - headerSize)).take len) =
        none → o.readCStr offset = .error .invalidEncoding) ∧
    (∀ s,
      Utf8.decode? ((o.trailing.drop (offset.toNat - headerSize)).take len) =
        some s → o.readCStr offset = .ok s) := by
  have hlt : len < (o.trailing.drop (offset.toNat - headerSize)).length :=
    cstrScanLen_lt_length _ _ hscan
  have hmemdrop : o.mem.drop (offset.toNat - headerSize) =
      o.trailing.drop (offset.toNat - headerSize) ++
        o.beyond.drop (offset.toNat - headerSize - o.trailing.length) := by
    rw [ZDBIndexOptions.mem, List.drop_append_eq_append_drop]
  have hscan' : cstrScanLen (o.mem.drop (offset.toNat - headerSize)) =
      some len := by
    rw [hmemdrop]
    exact cstrScanLen_append_left _ _ _ hscan
  have htake : (o.mem.drop (offset.toNat - headerSize)).take len =
      (o.trailing.drop (offset.toNat - headerSize)).take len := by
    rw [hmemdrop]
    exact List.take_append_of_le_length (le_of_lt hlt)
  refine ⟨?_, ?_, ?_, ?_⟩
  · rw [ZDBIndexOptions.readSpanStop, hscan']
    rfl
  · rw [List.length_drop] at hlt
    rw [ZDBIndexOptions.blockLen]
    simp only [headerSize] at hoff hlt ⊢
    omega
  · intro hdec
    rw [ZDBIndexOptions.readCStr, if_neg (not_lt.mpr hoff)]
    simp only [hscan', htake, hdec]
  · intro s hdec
    rw [ZDBIndexOptions.readCStr, if_neg (not_lt.mpr hoff)]
    simp only [hscan', htake, hdec]

/-- C2 counterexample: the claim as stated — every decoded block with
a non-zero string offset is read only within the declared block length
— is false.  A block whose trailing region holds no NUL lets the scan
run past the declared length into adjacent memory (`get_str` has no
bounds check): here the block is 57 bytes, the scan stops at address
58, and the accessor happily returns "AB" whose second byte lies
outside the block. -/
theorem C2_string_read_in_block_counterexample :
    (¬ ∀ (o : ZDBIndexOptions), o.url_offset ≠ 0 →
        ∀ stop, o.readSpanStop o.url_offset = some stop →
          stop < o.blockLen) ∧
    (⟨56, 0, 0, 0, 0, 0, 1, 5, 0, 8, 8388608, false, [65], [66, 0]⟩ :
        ZDBIndexOptions).url = .ok "AB" ∧
    (⟨56, 0, 0, 0, 0, 0, 1, 5, 0, 8, 8388608, false, [65], [66, 0]⟩ :
        ZDBIndexOptions).readSpanStop 56 = some 58 ∧
    (⟨56, 0, 0, 0, 0, 0, 1, 5, 0, 8, 8388608, false, [65], [66, 0]⟩ :
        ZDBIndexOptions).blockLen = 57 := by
  refine ⟨?_, rfl, rfl, rfl⟩
  intro h
  have h58 := h
    ⟨56, 0, 0, 0, 0, 0, 1, 5, 0, 8, 8388608, false, [65], [66, 0]⟩
    (by decide) 58 rfl
  rw [show (⟨56, 0, 0, 0, 0, 0, 1, 5, 0, 8, 8388608, false, [65], [66, 0]⟩ :
    ZDBIndexOptions).blockLen = 57 from rfl] at h58
  omega

/-- Witness for the amended C2 at two concrete blocks satisfying the
layout invariant: one with a valid-UTF-8 span (read back in-bounds),
one with an invalid span (InvalidEncoding). -/
theorem C2_string_read_in_block_witness :
    (⟨56, 0, 0, 0, 0, 0, 1, 5, 0, 8, 8388608, false, [97, 0], []⟩ :
        ZDBIndexOptions).readSpanStop 56 = some 57 ∧
    57 < (⟨56, 0, 0, 0, 0, 0, 1, 5, 0, 8, 8388608, false, [97, 0], []⟩ :
        ZDBIndexOptions).blockLen ∧
    (⟨56, 0, 0, 0, 0, 0, 1, 5, 0, 8, 8388608, false, [97, 0], []⟩ :
        ZDBIndexOptions).readCStr 56 = .ok "a" ∧
    (⟨56, 0, 0, 0, 0, 0, 1, 5, 0, 8, 8388608, false, [255, 0], []⟩ :
        ZDBIndexOptions).readCStr 56 = .error .invalidEncoding := by
  have hv := C2_string_read_in_block
    ⟨56, 0, 0, 0, 0, 0, 1, 5, 0, 8, 8388608, false, [97, 0], []⟩
    56 1 (by decide) rfl
  have hi := C2_string_read_in_block
    ⟨56, 0, 0, 0, 0, 0, 1, 5, 0, 8, 8388608, false, [255, 0], []⟩
    56 1 (by decide) rfl
  exact ⟨hv.1, hv.2.1, hv.2.2.2 "a" rfl, hi.2.2.1 rfl⟩
